import Mathlib

set_option linter.unusedVariables false

/-!
Verification of the eeg_annotator windowed data-access layer and annotation
consolidation logic, shallowly embedded from the Python source
(`src/core/data_streamer.py`, `src/core/montage_manager.py`,
`src/views/main_window.py`).

Floating-point times and cutoff frequencies are modelled as rationals
(`Rat`): every comparison the code performs on them (`==`, `<`, `max`,
`min`, tuple ordering) is an exact value comparison, which `Rat` reproduces
for all non-NaN floats.
-/

namespace EEGAnnotator

/-! ## Annotation model (`EEGAnnotator.load_annotations` / `save_annotations`
in `src/views/main_window.py`)

A persisted CSV row has columns `channels, start_time, stop_time, onset`;
the `channels` column of one row holds a single channel name. -/

/-- One persisted annotation row (`df.to_dict(orient="records")` element). -/
structure Row where
  channels : String
  start_time : Rat
  stop_time : Rat
  onset : String
deriving DecidableEq, Repr

/-- One consolidated in-memory annotation (`current_annotation` dict). -/
structure Annotation where
  channels : List String
  start_time : Rat
  stop_time : Rat
  onset : String
deriving DecidableEq, Repr

/-- The Python sort key `lambda a: (a.start_time, a.stop_time, a.onset)`:
tuples compare lexicographically, so this is the lexicographic less-or-equal
on (start_time, stop_time, onset). -/
def rowLe (a b : Row) : Bool :=
  decide (a.start_time < b.start_time ∨
    (a.start_time = b.start_time ∧ (a.stop_time < b.stop_time ∨
      (a.stop_time = b.stop_time ∧ a.onset ≤ b.onset))))

/-- `annotations.sort(key=lambda a: (a.start_time, a.stop_time, a.onset))` —
Python `list.sort` is a stable sort, as is `List.mergeSort`. -/
def sortRows (rows : List Row) : List Row := rows.mergeSort rowLe

/-- The merge condition of the consolidation loop:
`current_annotation['start_time'] == ann['start_time'] and
 current_annotation['stop_time'] == ann['stop_time'] and
 current_annotation['onset'] == ann['onset']`
with the current group's fields (s, t, o) on the left. -/
def keyEq (s t : Rat) (o : String) (x : Row) : Bool :=
  decide (s = x.start_time ∧ t = x.stop_time ∧ o = x.onset)

/-- The `for i in range(1, len(annotations))` loop of
`EEGAnnotator.load_annotations`, with `cur` the running
`current_annotation`; the final `merged_annotations.append(current_annotation)`
is the `[cur]` in the nil case. -/
def mergeLoop (cur : Annotation) : List Row → List Annotation
  | [] => [cur]
  | r :: rest =>
    if keyEq cur.start_time cur.stop_time cur.onset r then
      mergeLoop { cur with channels := cur.channels ++ [r.channels] } rest
    else
      cur :: mergeLoop ⟨[r.channels], r.start_time, r.stop_time, r.onset⟩ rest

/-- The consolidation pass of `load_annotations` applied to the (already
sorted) row list: empty input yields no annotations, otherwise the loop
starts from a group seeded with the first row. -/
def mergeAnnotations : List Row → List Annotation
  | [] => []
  | r :: rest => mergeLoop ⟨[r.channels], r.start_time, r.stop_time, r.onset⟩ rest

/-- `EEGAnnotator.load_annotations` (the pure part, given the parsed CSV
rows): sort by (start_time, stop_time, onset), then merge consecutive rows
with equal key into one consolidated annotation. -/
def load_annotations (rows : List Row) : List Annotation :=
  mergeAnnotations (sortRows rows)

/-- `EEGAnnotator.save_annotations` (the pure expansion part): one CSV row
per channel of each consolidated annotation, in order. -/
def save_annotations (anns : List Annotation) : List Row :=
  anns.flatMap (fun a => a.channels.map (fun ch => ⟨ch, a.start_time, a.stop_time, a.onset⟩))

/-- Spec-side consolidation, written from the spec's words independent of the
code's accumulator loop: each consolidated record is a maximal run of
consecutive sorted rows whose (start_time, stop_time, onset) all equal the
run head's; its channel list is the rows' channels in order, not
deduplicated. -/
def specGroups : List Row → List Annotation
  | [] => []
  | r :: rest =>
    ⟨r.channels :: (rest.takeWhile (keyEq r.start_time r.stop_time r.onset)).map
        (fun x => x.channels),
      r.start_time, r.stop_time, r.onset⟩ ::
    specGroups (rest.dropWhile (keyEq r.start_time r.stop_time r.onset))
termination_by l => l.length
decreasing_by
  have h : (rest.dropWhile (keyEq r.start_time r.stop_time r.onset)).length ≤
      rest.length :=
    (List.dropWhile_sublist (keyEq r.start_time r.stop_time r.onset)).length_le
  simp only [List.length_cons]
  omega

/-- Spec-side `load`: sort by (start_time, stop_time, onset) ascending, then
group maximal runs of equal keys. -/
def specConsolidate (rows : List Row) : List Annotation := specGroups (sortRows rows)

/-- The example row set from the spec's Testable Properties section. -/
def exampleRows : List Row :=
  [⟨"Fp1", 10, 12, "SPSW"⟩, ⟨"Fp2", 10, 12, "SPSW"⟩, ⟨"T3", 20, 22, "BCKG"⟩]

end EEGAnnotator

namespace DataStreamer

/-! ## Windowed data-access layer (`EEGDataStreamer` in
`src/core/data_streamer.py` and `MontageManager` in
`src/core/montage_manager.py`) -/

/-- The error outcomes of a `get_window` call and its collaborators. -/
inductive GWError
  /-- `RuntimeError("No EDF file is open. Call open_edf() first.")` -/
  | noFileOpen
  /-- `RuntimeError(f"Failed to load window at {start_time}s: ...")` — the
  wrapper around any exception escaping the try block of `get_window`. -/
  | loadFailed
  /-- `KeyError(f"Non-existent montage type: ...")` from
  `MontageManager.get_montage`. -/
  | keyError
  /-- The error `mne.set_bipolar_reference` raises when an anode or cathode
  channel is absent from the data (a ValueError, not a KeyError). -/
  | missingChannel
deriving DecidableEq, Repr

/-- `filter_params`: the `(l_freq, h_freq)` tuple, each optionally set. -/
abbrev FilterParams := Option Rat × Option Rat

/-- A materialized window (an mne Raw object cropped to `[tmin, tmax]` and
loaded): channel-major samples with their channel names. -/
structure Window where
  channels : List (String × List Int)
  tmin : Rat
  tmax : Rat
deriving DecidableEq, Repr

/-- The open recording handle (`mne.io.read_raw_edf(..., preload=False)`):
its total duration (`raw.times[-1]`) and the external range-read
collaborator — `raw_handle.copy().crop(tmin, tmax); load_data()` — producing
the raw channel-major samples for a range. -/
structure Recording where
  duration : Rat
  cropData : Rat → Rat → List (String × List Int)

/-- A montage configuration: output channel name with its (anode, cathode)
source pair, in declaration order. -/
abbrev MontageCfg := List (String × String × String)

/-- `MontageManager`: the catalog of montage configurations loaded at
startup from the YAML resource files. -/
structure MontageManager where
  montages : List (String × MontageCfg)

/-- `MontageManager.get_montage`: returns the configuration dictionary, or
raises `KeyError` when the montage type is absent. -/
def MontageManager.get_montage (m : MontageManager) (montage_type : String) :
    Except GWError MontageCfg :=
  match m.montages.find? (fun p => p.1 = montage_type) with
  | some p => Except.ok p.2
  | none => Except.error GWError.keyError

/-- Channel lookup by name in channel-major data. -/
def lookupCh (chs : List (String × List Int)) (name : String) : Option (List Int) :=
  (chs.find? (fun p => p.1 = name)).map (fun p => p.2)

/-- `mne.set_bipolar_reference(..., drop_refs=True)` followed by
`raw.pick(ch_name)`: each configured output channel is anode minus cathode
sample-wise, in configuration order; channels not named as outputs are
dropped; fails when an anode/cathode is absent from the data. -/
def bipolarReference (chs : List (String × List Int)) (cfg : MontageCfg) :
    Option (List (String × List Int)) :=
  cfg.mapM (fun e => do
    let a ← lookupCh chs e.2.1
    let c ← lookupCh chs e.2.2
    pure (e.1, List.zipWith (fun x y => x - y) a c))

/-- Python `montage.startswith('BIPOLAR')`: character-level prefix test. -/
def strStartsWith (s p : String) : Bool :=
  List.isPrefixOf p.data s.data

/-- `EEGDataStreamer._apply_montage`: only montage names starting with
`'BIPOLAR'` trigger a catalog lookup; a `KeyError` raised by `get_montage`
is caught — an error is logged and the window is returned unmodified; other
exceptions (such as a missing source channel) propagate. Any montage name
not starting with `'BIPOLAR'` (including unknown names) returns the window
as-is. -/
def applyMontage (mgr : MontageManager) (w : Window) (montage : String) :
    Except GWError Window :=
  if strStartsWith montage "BIPOLAR" then
    match mgr.get_montage montage with
    | Except.error _ => Except.ok w
    | Except.ok cfg =>
      match bipolarReference w.channels cfg with
      | none => Except.error GWError.missingChannel
      | some chs => Except.ok { w with channels := chs }
  else
    Except.ok w

/-- The external filter collaborator (`mne.io.Raw.filter`): given
`(l_freq, h_freq)` and the window, either produces the filtered window or
raises (modelled as `none`). -/
abbrev FilterImpl := Option Rat → Option Rat → Window → Option Window

/-- `EEGDataStreamer._apply_filter`: filtering runs only if at least one of
`l_freq`, `h_freq` is set; on filter failure a warning is logged and the
unfiltered window is returned. The Bool records whether that warning was
emitted. -/
def applyFilter (impl : FilterImpl) (w : Window) (fp : FilterParams) :
    Window × Bool :=
  if fp.1.isSome ∨ fp.2.isSome then
    match impl fp.1 fp.2 w with
    | some w2 => (w2, false)
    | none => (w, true)
  else
    (w, false)

/-- `cache_key = (start_time, duration, montage, tuple(filter_params))` —
tuple equality is componentwise, floats compared by value. -/
structure CacheKey where
  start_time : Rat
  duration : Rat
  montage : String
  filter_params : FilterParams
deriving DecidableEq, Repr

/-- Key construction inside `get_window`. -/
def mkCacheKey (start_time duration : Rat) (montage : String)
    (fp : FilterParams) : CacheKey :=
  ⟨start_time, duration, montage, fp⟩

/-- `MAX_CACHE_SIZE = 5`. -/
def MAX_CACHE_SIZE : Nat := 5

/-- The streamer state: the open handle, the `OrderedDict` window cache as
an association list in recency order (head = oldest = `next(iter(...))`,
tail end = most recently used), and `metadata['duration']` (0 standing for
the empty metadata dict before any successful open). -/
structure Streamer where
  raw_handle : Option Recording
  window_cache : List (CacheKey × Window)
  metadata_duration : Rat

/-- `cache_key in self.window_cache` and `self.window_cache[cache_key]`. -/
def cacheLookup (cache : List (CacheKey × Window)) (k : CacheKey) : Option Window :=
  (cache.find? (fun e => e.1 = k)).map (fun e => e.2)

/-- `OrderedDict.move_to_end(cache_key)`: the present entry moves to the
most-recently-used end. -/
def moveToEnd (cache : List (CacheKey × Window)) (k : CacheKey) :
    List (CacheKey × Window) :=
  match cache.find? (fun e => e.1 = k) with
  | some e => (cache.filter (fun e2 => e2.1 ≠ k)) ++ [e]
  | none => cache

/-- The cache update of a completed cache-miss `get_window`:
`self.window_cache[cache_key] = window_data` (which appends at the
most-recently-used end), then eviction of `next(iter(self.window_cache))`
(the oldest entry) when the cache now exceeds `MAX_CACHE_SIZE`. -/
def missInsert (cache : List (CacheKey × Window)) (k : CacheKey) (w : Window) :
    List (CacheKey × Window) :=
  let c1 := cache ++ [(k, w)]
  if MAX_CACHE_SIZE < c1.length then c1.drop 1 else c1

/-- The read range computed by `get_window`:
`tmin = max(0, start_time)`,
`tmax = min(self.metadata['duration'], start_time + duration + buffer_seconds)`. -/
def readRange (metadata_duration start_time duration buffer_seconds : Rat) :
    Rat × Rat :=
  (max 0 start_time, min metadata_duration (start_time + duration + buffer_seconds))

/-- The observable outcome of one `get_window` call: the returned window or
raised error, the streamer state afterwards, how many range reads the
SignalSource performed, and whether `_apply_filter` logged its
filter-failure warning. -/
structure GWResult where
  result : Except GWError Window
  state : Streamer
  reads : Nat
  filter_warned : Bool

/-- `EEGDataStreamer.get_window`. On a hit the cached window is returned
with no read. On a miss the buffered range is cropped and loaded (one
read), montage then filter are applied, the result is appended to the
cache, and if the cache now exceeds `MAX_CACHE_SIZE` the oldest entry
(`next(iter(self.window_cache))`) is evicted. `crop` raises when
`tmax < tmin` (before any sample is loaded), and together with any other
exception of the try block is wrapped into `RuntimeError` (`loadFailed`). -/
def get_window (mgr : MontageManager) (impl : FilterImpl) (s : Streamer)
    (start_time duration : Rat) (montage : String) (fp : FilterParams)
    (buffer_seconds : Rat) : GWResult :=
  match s.raw_handle with
  | none => ⟨Except.error GWError.noFileOpen, s, 0, false⟩
  | some rec =>
    let cache_key := mkCacheKey start_time duration montage fp
    match cacheLookup s.window_cache cache_key with
    | some w =>
      ⟨Except.ok w, { s with window_cache := moveToEnd s.window_cache cache_key },
        0, false⟩
    | none =>
      let range := readRange s.metadata_duration start_time duration buffer_seconds
      if range.2 < range.1 then
        ⟨Except.error GWError.loadFailed, s, 0, false⟩
      else
        let window0 : Window := ⟨rec.cropData range.1 range.2, range.1, range.2⟩
        match applyMontage mgr window0 montage with
        | Except.error _ => ⟨Except.error GWError.loadFailed, s, 1, false⟩
        | Except.ok w1 =>
          let fw := applyFilter impl w1 fp
          let cache1 := s.window_cache ++ [(cache_key, fw.1)]
          let cache2 := if MAX_CACHE_SIZE < cache1.length then cache1.drop 1 else cache1
          ⟨Except.ok fw.1, { s with window_cache := cache2 }, 1, fw.2⟩

/-- `EEGDataStreamer.clear_cache`. -/
def clear_cache (s : Streamer) : Streamer := { s with window_cache := [] }

/-- The streamer state as produced by `EEGDataStreamer.__init__` (handle
`None`, empty cache, empty metadata). -/
def Streamer.init : Streamer := ⟨none, [], 0⟩

/-- One `get_window` argument tuple (the caller-controlled parameters). -/
structure Args where
  start_time : Rat
  duration : Rat
  montage : String
  fp : FilterParams
  buffer : Rat
deriving DecidableEq, Repr

/-- The cache key `get_window` builds for an argument tuple. -/
def Args.key (a : Args) : CacheKey :=
  mkCacheKey a.start_time a.duration a.montage a.fp

/-- The state transition of one `get_window` call. -/
def stepGW (mgr : MontageManager) (impl : FilterImpl) (s : Streamer)
    (a : Args) : Streamer :=
  (get_window mgr impl s a.start_time a.duration a.montage a.fp a.buffer).state

/-- The state after a sequence of `get_window` calls. -/
def runSeq (mgr : MontageManager) (impl : FilterImpl) (s : Streamer)
    (args : List Args) : Streamer :=
  args.foldl (stepGW mgr impl) s

/-- The key-level effect of a cache-miss insertion: append the new key, and
evict the oldest entry when the cache now exceeds `MAX_CACHE_SIZE`. -/
def insertKeyOp (l : List CacheKey) (k : CacheKey) : List CacheKey :=
  if MAX_CACHE_SIZE < (l ++ [k]).length then (l ++ [k]).drop 1 else l ++ [k]

/-- The raw (pre-montage, pre-filter) window `get_window` materializes for an
argument tuple, given the handle and `metadata['duration']`. -/
def rawWindow (rec : Recording) (mdur : Rat) (a : Args) : Window :=
  let range := readRange mdur a.start_time a.duration a.buffer
  ⟨rec.cropData range.1 range.2, range.1, range.2⟩

/-- A `get_window` miss for this argument tuple completes without raising:
the crop range is non-degenerate and the montage stage succeeds (the filter
stage never raises out of `_apply_filter`). -/
def loadOk (mgr : MontageManager) (rec : Recording) (mdur : Rat) (a : Args) : Prop :=
  (readRange mdur a.start_time a.duration a.buffer).1 ≤
      (readRange mdur a.start_time a.duration a.buffer).2 ∧
    (applyMontage mgr (rawWindow rec mdur a) a.montage).isOk

instance (mgr : MontageManager) (rec : Recording) (mdur : Rat) (a : Args) :
    Decidable (loadOk mgr rec mdur a) := by
  unfold loadOk; infer_instance

/-! Concrete instances used by the witness theorems. -/

/-- A filter collaborator that always succeeds without changing the data. -/
def okImpl : FilterImpl := fun _ _ w => some w

/-- A filter collaborator that always raises (window too short for a stable
filter at the requested cutoffs). -/
def failImpl : FilterImpl := fun _ _ _ => none

/-- A concrete open recording of 50 seconds with two channels. -/
def sampleRecording : Recording :=
  ⟨50, fun _ _ => [("Fp1", [5, 7, 9]), ("Fp2", [1, 2, 3])]⟩

/-- A concrete montage catalog holding one bipolar montage. -/
def sampleMgr : MontageManager :=
  ⟨[("BIPOLAR DOUBLE BANANA", [("Fp1-Fp2", "Fp1", "Fp2")])]⟩

/-- A concrete streamer state with `sampleRecording` open and an empty
cache. -/
def openState : Streamer := ⟨some sampleRecording, [], 50⟩

/-- Concrete distinct argument tuples (differing in `start_time`) used by
the witness of the LRU-eviction theorem. -/
def argAt (t : Rat) : Args := ⟨t, 10, "AVERAGE", (none, none), 2⟩

end DataStreamer

/-! ## Theorems: annotation consolidation -/

namespace EEGAnnotator

theorem mergeLoop_eq_specGroups (c : List String) (s t : Rat) (o : String)
    (l : List Row) :
    mergeLoop ⟨c, s, t, o⟩ l =
      ⟨c ++ (l.takeWhile (keyEq s t o)).map (fun x => x.channels), s, t, o⟩ ::
        specGroups (l.dropWhile (keyEq s t o)) := by
  induction l generalizing c s t o with
  | nil => simp [mergeLoop, specGroups]
  | cons r rest ih =>
    by_cases h : keyEq s t o r
    · rw [mergeLoop]
      simp only [h, if_pos]
      rw [ih (c ++ [r.channels]) s t o]
      simp [List.takeWhile_cons_of_pos h, List.dropWhile_cons_of_pos h]
    · rw [mergeLoop]
      simp only [h, if_neg, Bool.false_eq_true, not_false_eq_true]
      rw [ih [r.channels] r.start_time r.stop_time r.onset]
      rw [List.takeWhile_cons_of_neg h, List.dropWhile_cons_of_neg h]
      rw [specGroups]
      simp

theorem mergeAnnotations_eq_specGroups (l : List Row) :
    mergeAnnotations l = specGroups l := by
  cases l with
  | nil => simp [mergeAnnotations, specGroups]
  | cons r rest =>
    rw [mergeAnnotations, mergeLoop_eq_specGroups, specGroups]
    simp

theorem save_mergeLoop (c : List String) (s t : Rat) (o : String) (l : List Row) :
    save_annotations (mergeLoop ⟨c, s, t, o⟩ l) =
      c.map (fun ch => ⟨ch, s, t, o⟩) ++ l := by
  induction l generalizing c s t o with
  | nil => simp [mergeLoop, save_annotations]
  | cons r rest ih =>
    by_cases h : keyEq s t o r
    · rw [mergeLoop]
      simp only [h, if_pos]
      rw [ih (c ++ [r.channels]) s t o]
      have hk : s = r.start_time ∧ t = r.stop_time ∧ o = r.onset := by
        simpa [keyEq] using h
      obtain ⟨hs, ht, ho⟩ := hk
      obtain ⟨rc, rs, rt, ro⟩ := r
      simp_all
    · rw [mergeLoop]
      simp only [h, if_neg, Bool.false_eq_true, not_false_eq_true]
      rw [save_annotations, List.flatMap_cons, ← save_annotations]
      rw [ih [r.channels] r.start_time r.stop_time r.onset]
      obtain ⟨rc, rs, rt, ro⟩ := r
      simp

theorem save_mergeAnnotations (l : List Row) :
    save_annotations (mergeAnnotations l) = l := by
  cases l with
  | nil => rfl
  | cons r rest =>
    rw [mergeAnnotations, save_mergeLoop]
    obtain ⟨rc, rs, rt, ro⟩ := r
    simp

theorem rowLe_trans (a b c : Row) (hab : rowLe a b) (hbc : rowLe b c) :
    rowLe a c := by
  simp only [rowLe, decide_eq_true_eq] at *
  rcases hab with h1 | ⟨e1, h1⟩
  · rcases hbc with h2 | ⟨e2, h2⟩
    · exact Or.inl (h1.trans h2)
    · exact Or.inl (e2 ▸ h1)
  · rcases hbc with h2 | ⟨e2, h2⟩
    · exact Or.inl (e1 ▸ h2)
    · refine Or.inr ⟨e1.trans e2, ?_⟩
      rcases h1 with h1 | ⟨f1, h1⟩
      · rcases h2 with h2 | ⟨f2, h2⟩
        · exact Or.inl (h1.trans h2)
        · exact Or.inl (f2 ▸ h1)
      · rcases h2 with h2 | ⟨f2, h2⟩
        · exact Or.inl (f1 ▸ h2)
        · exact Or.inr ⟨f1.trans f2, h1.trans h2⟩

theorem rowLe_total (a b : Row) : rowLe a b || rowLe b a := by
  simp only [rowLe, Bool.or_eq_true, decide_eq_true_eq]
  rcases lt_trichotomy a.start_time b.start_time with h | h | h
  · exact Or.inl (Or.inl h)
  · rcases lt_trichotomy a.stop_time b.stop_time with h2 | h2 | h2
    · exact Or.inl (Or.inr ⟨h, Or.inl h2⟩)
    · rcases le_total a.onset b.onset with h3 | h3
      · exact Or.inl (Or.inr ⟨h, Or.inr ⟨h2, h3⟩⟩)
      · exact Or.inr (Or.inr ⟨h.symm, Or.inr ⟨h2.symm, h3⟩⟩)
    · exact Or.inr (Or.inr ⟨h.symm, Or.inl h2⟩)
  · exact Or.inr (Or.inl h)

/-- C2: for every non-empty persisted row list, expanding the consolidated
annotations produced by load back to rows (`save_annotations` after
`load_annotations`), then re-sorting both the output rows and the input rows
by (start_time, stop_time, onset), yields set-equal (multiset-equal) row
collections. -/
theorem annotation_round_trip (rows : List Row) (hne : rows ≠ []) :
    (↑(sortRows (save_annotations (load_annotations rows))) : Multiset Row) =
      (↑(sortRows rows) : Multiset Row) := by
  rw [load_annotations, save_mergeAnnotations]
  exact Multiset.coe_eq_coe.mpr (List.mergeSort_perm (sortRows rows) rowLe)

/-- Witness for C2 at the spec's own example rows. -/
theorem annotation_round_trip_witness :
    (↑(sortRows (save_annotations (load_annotations exampleRows))) : Multiset Row) =
      (↑(sortRows exampleRows) : Multiset Row) :=
  annotation_round_trip exampleRows (by decide)

/-- C7: for every input row list, the consolidation of `load_annotations`
equals the spec-described procedure — sort rows by (start_time, stop_time,
onset) ascending, then group maximal runs of rows whose three key fields all
equal the current group's, collecting channels in order without
deduplication; moreover the sorted pass is indeed sorted ascending by that
key and is a permutation of the input. -/
theorem load_annotations_consolidates (rows : List Row) :
    load_annotations rows = specConsolidate rows ∧
      (sortRows rows).Pairwise (fun a b => rowLe a b = true) ∧
      (sortRows rows).Perm rows := by
  refine ⟨?_, ?_, List.mergeSort_perm rows rowLe⟩
  · rw [load_annotations, specConsolidate, mergeAnnotations_eq_specGroups]
  · have h : (List.mergeSort rows rowLe).Pairwise (fun a b => rowLe a b = true) :=
      List.sorted_mergeSort (fun x y z h1 h2 => rowLe_trans x y z h1 h2)
        (fun x y => rowLe_total x y) rows
    exact h

end EEGAnnotator

/-! ## Lemmas: the branches of `get_window` -/

namespace DataStreamer

theorem get_window_no_file (mgr : MontageManager) (impl : FilterImpl)
    (s : Streamer) (st du : Rat) (m : String) (fp : FilterParams) (buf : Rat)
    (h : s.raw_handle = none) :
    get_window mgr impl s st du m fp buf =
      ⟨Except.error GWError.noFileOpen, s, 0, false⟩ := by
  simp [get_window, h]

theorem get_window_hit (mgr : MontageManager) (impl : FilterImpl)
    (s : Streamer) (rec : Recording) (st du : Rat) (m : String)
    (fp : FilterParams) (buf : Rat) (w : Window)
    (hh : s.raw_handle = some rec)
    (hc : cacheLookup s.window_cache (mkCacheKey st du m fp) = some w) :
    get_window mgr impl s st du m fp buf =
      ⟨Except.ok w,
        { s with window_cache := moveToEnd s.window_cache (mkCacheKey st du m fp) },
        0, false⟩ := by
  simp [get_window, hh, hc]

theorem get_window_crop_fail (mgr : MontageManager) (impl : FilterImpl)
    (s : Streamer) (rec : Recording) (st du : Rat) (m : String)
    (fp : FilterParams) (buf : Rat)
    (hh : s.raw_handle = some rec)
    (hc : cacheLookup s.window_cache (mkCacheKey st du m fp) = none)
    (hr : (readRange s.metadata_duration st du buf).2 <
          (readRange s.metadata_duration st du buf).1) :
    get_window mgr impl s st du m fp buf =
      ⟨Except.error GWError.loadFailed, s, 0, false⟩ := by
  simp [get_window, hh, hc, hr]

theorem get_window_miss (mgr : MontageManager) (impl : FilterImpl)
    (s : Streamer) (rec : Recording) (st du : Rat) (m : String)
    (fp : FilterParams) (buf : Rat) (w1 : Window)
    (hh : s.raw_handle = some rec)
    (hc : cacheLookup s.window_cache (mkCacheKey st du m fp) = none)
    (hr : ¬ ((readRange s.metadata_duration st du buf).2 <
             (readRange s.metadata_duration st du buf).1))
    (hm : applyMontage mgr
        ⟨rec.cropData (readRange s.metadata_duration st du buf).1
            (readRange s.metadata_duration st du buf).2,
          (readRange s.metadata_duration st du buf).1,
          (readRange s.metadata_duration st du buf).2⟩ m = Except.ok w1) :
    get_window mgr impl s st du m fp buf =
      ⟨Except.ok (applyFilter impl w1 fp).1,
        { s with window_cache := (missInsert s.window_cache (mkCacheKey st du m fp)
            ((applyFilter impl w1 fp).1)) },
        1, (applyFilter impl w1 fp).2⟩ := by
  simp [get_window, hh, hc, hr, hm, missInsert]

theorem get_window_montage_fail (mgr : MontageManager) (impl : FilterImpl)
    (s : Streamer) (rec : Recording) (st du : Rat) (m : String)
    (fp : FilterParams) (buf : Rat) (e : GWError)
    (hh : s.raw_handle = some rec)
    (hc : cacheLookup s.window_cache (mkCacheKey st du m fp) = none)
    (hr : ¬ ((readRange s.metadata_duration st du buf).2 <
             (readRange s.metadata_duration st du buf).1))
    (hm : applyMontage mgr
        ⟨rec.cropData (readRange s.metadata_duration st du buf).1
            (readRange s.metadata_duration st du buf).2,
          (readRange s.metadata_duration st du buf).1,
          (readRange s.metadata_duration st du buf).2⟩ m = Except.error e) :
    get_window mgr impl s st du m fp buf =
      ⟨Except.error GWError.loadFailed, s, 1, false⟩ := by
  simp [get_window, hh, hc, hr, hm]

theorem get_window_preserves (mgr : MontageManager) (impl : FilterImpl)
    (s : Streamer) (st du : Rat) (m : String) (fp : FilterParams) (buf : Rat) :
    (get_window mgr impl s st du m fp buf).state.raw_handle = s.raw_handle ∧
      (get_window mgr impl s st du m fp buf).state.metadata_duration =
        s.metadata_duration := by
  rcases hh : s.raw_handle with _ | rec
  · rw [get_window_no_file mgr impl s st du m fp buf hh]
    exact ⟨hh, rfl⟩
  · rcases hcl : cacheLookup s.window_cache (mkCacheKey st du m fp) with _ | w
    · by_cases hr : (readRange s.metadata_duration st du buf).2 <
          (readRange s.metadata_duration st du buf).1
      · rw [get_window_crop_fail mgr impl s rec st du m fp buf hh hcl hr]
        exact ⟨hh, rfl⟩
      · rcases hm : applyMontage mgr
            ⟨rec.cropData (readRange s.metadata_duration st du buf).1
                (readRange s.metadata_duration st du buf).2,
              (readRange s.metadata_duration st du buf).1,
              (readRange s.metadata_duration st du buf).2⟩ m with e | w1
        · rw [get_window_montage_fail mgr impl s rec st du m fp buf e hh hcl hr hm]
          exact ⟨hh, rfl⟩
        · rw [get_window_miss mgr impl s rec st du m fp buf w1 hh hcl hr hm]
          exact ⟨hh, rfl⟩
    · rw [get_window_hit mgr impl s rec st du m fp buf w hh hcl]
      exact ⟨hh, rfl⟩


theorem length_filter_lt_of_mem_not (l : List (CacheKey × Window))
    (p : (CacheKey × Window) → Bool) (a : CacheKey × Window)
    (ha : a ∈ l) (hpa : ¬ p a) : (l.filter p).length < l.length := by
  induction l with
  | nil => cases ha
  | cons x xs ih =>
    rcases List.mem_cons.mp ha with rfl | hmem
    · have := List.length_filter_le p xs
      simp [List.filter_cons, hpa]
      omega
    · by_cases hx : p x
      · simpa [List.filter_cons, hx] using ih hmem
      · have := List.length_filter_le p xs
        simp [List.filter_cons, hx]
        omega

theorem cacheLookup_eq_none_iff (cache : List (CacheKey × Window)) (k : CacheKey) :
    cacheLookup cache k = none ↔ k ∉ cache.map Prod.fst := by
  unfold cacheLookup
  rw [Option.map_eq_none', List.find?_eq_none]
  constructor
  · intro h hk
    obtain ⟨e, he, hek⟩ := List.mem_map.mp hk
    exact h e he (by simp [hek])
  · intro h x hx hxk
    exact h (List.mem_map.mpr ⟨x, hx, by simpa using hxk⟩)

theorem cacheLookup_isSome_iff (cache : List (CacheKey × Window)) (k : CacheKey) :
    (cacheLookup cache k).isSome ↔ k ∈ cache.map Prod.fst := by
  unfold cacheLookup
  rw [Option.isSome_map', List.find?_isSome]
  constructor
  · rintro ⟨e, he, hp⟩
    exact List.mem_map.mpr ⟨e, he, by simpa using hp⟩
  · intro hk
    obtain ⟨e, he, hek⟩ := List.mem_map.mp hk
    exact ⟨e, he, by simp [hek]⟩

theorem cacheLookup_moveToEnd_self (cache : List (CacheKey × Window))
    (k : CacheKey) (w : Window) (h : cacheLookup cache k = some w) :
    cacheLookup (moveToEnd cache k) k = some w := by
  unfold cacheLookup at h
  obtain ⟨e, he, hew⟩ := Option.map_eq_some'.mp h
  have hek : e.1 = k := by simpa using List.find?_some he
  unfold moveToEnd cacheLookup
  rw [he, List.find?_append]
  have hfilter : (cache.filter (fun e2 => e2.1 ≠ k)).find? (fun e2 => e2.1 = k) = none := by
    rw [List.find?_eq_none]
    intro x hx
    have := (List.mem_filter.mp hx).2
    simpa using this
  rw [hfilter]
  simp [hek, hew]

theorem cacheLookup_missInsert_self (cache : List (CacheKey × Window))
    (k : CacheKey) (w : Window) (h : cacheLookup cache k = none) :
    cacheLookup (missInsert cache k w) k = some w := by
  unfold cacheLookup at h
  rw [Option.map_eq_none', List.find?_eq_none] at h
  unfold missInsert cacheLookup
  by_cases hl : MAX_CACHE_SIZE < (cache ++ [(k, w)]).length
  · simp only [hl, if_pos]
    have hlen : 1 ≤ cache.length := by
      simp [List.length_append, MAX_CACHE_SIZE] at hl
      omega
    rw [List.drop_append_of_le_length hlen, List.find?_append]
    have hdrop : (cache.drop 1).find? (fun e2 => e2.1 = k) = none := by
      rw [List.find?_eq_none]
      intro x hx
      exact h x (List.mem_of_mem_drop hx)
    rw [hdrop]
    simp
  · simp only [hl, if_neg, not_false_eq_true]
    rw [List.find?_append]
    have hnone : cache.find? (fun e2 => e2.1 = k) = none := List.find?_eq_none.mpr h
    rw [hnone]
    simp

theorem moveToEnd_keys (cache : List (CacheKey × Window)) (k : CacheKey)
    (h : (cacheLookup cache k).isSome) :
    (moveToEnd cache k).map Prod.fst =
      (cache.map Prod.fst).filter (fun x => x ≠ k) ++ [k] := by
  obtain ⟨w, hw⟩ := Option.isSome_iff_exists.mp h
  unfold cacheLookup at hw
  obtain ⟨e, he, hew⟩ := Option.map_eq_some'.mp hw
  have hek : e.1 = k := by simpa using List.find?_some he
  unfold moveToEnd
  rw [he, List.map_append, List.filter_map]
  have hcomp : (((fun x => decide (x ≠ k)) ∘ Prod.fst : CacheKey × Window → Bool)) =
      (fun e2 : CacheKey × Window => decide (e2.1 ≠ k)) := rfl
  rw [hcomp]
  simp [hek]

theorem missInsert_keys (cache : List (CacheKey × Window)) (k : CacheKey)
    (w : Window) :
    (missInsert cache k w).map Prod.fst = insertKeyOp (cache.map Prod.fst) k := by
  unfold missInsert insertKeyOp
  by_cases hl : MAX_CACHE_SIZE < (cache ++ [(k, w)]).length
  · have hl2 : MAX_CACHE_SIZE < (cache.map Prod.fst ++ [k]).length := by
      simpa using hl
    simp only [hl, hl2, if_pos]
    simp
  · have hl2 : ¬ MAX_CACHE_SIZE < (cache.map Prod.fst ++ [k]).length := by
      simpa using hl
    simp only [hl, hl2, if_neg, not_false_eq_true]
    simp

theorem moveToEnd_length_le (cache : List (CacheKey × Window)) (k : CacheKey)
    (h : (cacheLookup cache k).isSome) :
    (moveToEnd cache k).length ≤ cache.length := by
  obtain ⟨w, hw⟩ := Option.isSome_iff_exists.mp h
  unfold cacheLookup at hw
  obtain ⟨e, he, hew⟩ := Option.map_eq_some'.mp hw
  have hek : e.1 = k := by simpa using List.find?_some he
  have hem : e ∈ cache := List.mem_of_find?_eq_some he
  unfold moveToEnd
  rw [he]
  have hstrict : (cache.filter (fun e2 => e2.1 ≠ k)).length < cache.length := by
    apply length_filter_lt_of_mem_not cache _ e hem
    simp [hek]
  simp only [List.length_append, List.length_cons, List.length_nil]
  omega

theorem missInsert_length_le (cache : List (CacheKey × Window)) (k : CacheKey)
    (w : Window) (h : cache.length ≤ MAX_CACHE_SIZE) :
    (missInsert cache k w).length ≤ MAX_CACHE_SIZE := by
  unfold missInsert
  by_cases hl : MAX_CACHE_SIZE < (cache ++ [(k, w)]).length
  · simp only [hl, if_pos]
    simp [List.length_append] at hl ⊢
    omega
  · simp only [hl, if_neg, not_false_eq_true]
    simp [List.length_append] at hl ⊢
    omega

theorem get_window_ok_lookup (mgr : MontageManager) (impl : FilterImpl)
    (s : Streamer) (st du : Rat) (m : String) (fp : FilterParams) (buf : Rat)
    (w : Window)
    (h : (get_window mgr impl s st du m fp buf).result = Except.ok w) :
    cacheLookup (get_window mgr impl s st du m fp buf).state.window_cache
      (mkCacheKey st du m fp) = some w := by
  rcases hh : s.raw_handle with _ | rec
  · rw [get_window_no_file mgr impl s st du m fp buf hh] at h ⊢
    simp at h
  · rcases hcl : cacheLookup s.window_cache (mkCacheKey st du m fp) with _ | w0
    · by_cases hr : (readRange s.metadata_duration st du buf).2 <
          (readRange s.metadata_duration st du buf).1
      · rw [get_window_crop_fail mgr impl s rec st du m fp buf hh hcl hr] at h ⊢
        simp at h
      · rcases hm : applyMontage mgr
            ⟨rec.cropData (readRange s.metadata_duration st du buf).1
                (readRange s.metadata_duration st du buf).2,
              (readRange s.metadata_duration st du buf).1,
              (readRange s.metadata_duration st du buf).2⟩ m with e | w1
        · rw [get_window_montage_fail mgr impl s rec st du m fp buf e hh hcl hr hm] at h ⊢
          simp at h
        · rw [get_window_miss mgr impl s rec st du m fp buf w1 hh hcl hr hm] at h ⊢
          simp at h
          rw [← h]
          exact cacheLookup_missInsert_self s.window_cache (mkCacheKey st du m fp)
            (applyFilter impl w1 fp).1 hcl
    · rw [get_window_hit mgr impl s rec st du m fp buf w0 hh hcl] at h ⊢
      simp at h
      rw [← h]
      exact cacheLookup_moveToEnd_self s.window_cache (mkCacheKey st du m fp) w0 hcl


theorem insertKeyOp_length_le (l : List CacheKey) (k : CacheKey)
    (h : l.length ≤ MAX_CACHE_SIZE) :
    (insertKeyOp l k).length ≤ MAX_CACHE_SIZE := by
  unfold insertKeyOp
  by_cases hl : MAX_CACHE_SIZE < (l ++ [k]).length
  · simp only [hl, if_pos]
    simp [List.length_append] at hl ⊢
    omega
  · simp only [hl, if_neg, not_false_eq_true]
    simp [List.length_append] at hl ⊢
    omega

theorem mem_insertKeyOp (l : List CacheKey) (k x : CacheKey)
    (h : x ∈ insertKeyOp l k) : x ∈ l ∨ x = k := by
  unfold insertKeyOp at h
  by_cases hl : MAX_CACHE_SIZE < (l ++ [k]).length
  · simp only [hl, if_pos] at h
    have := List.mem_of_mem_drop h
    simpa using this
  · simp only [hl, if_neg, not_false_eq_true] at h
    simpa using h

theorem foldl_insertKeyOp (ks : List CacheKey) (l : List CacheKey)
    (hl : l.length ≤ MAX_CACHE_SIZE) :
    List.foldl insertKeyOp l ks =
      (l ++ ks).drop (l.length + ks.length - MAX_CACHE_SIZE) := by
  have hM : MAX_CACHE_SIZE = 5 := rfl
  induction ks generalizing l with
  | nil =>
    simp only [List.foldl_nil, List.append_nil, List.length_nil, Nat.add_zero]
    have h0 : l.length - MAX_CACHE_SIZE = 0 := by omega
    rw [h0, List.drop_zero]
  | cons k ks ih =>
    rw [List.foldl_cons]
    simp only [List.length_cons]
    by_cases hc : l.length < MAX_CACHE_SIZE
    · have hcond : ¬ MAX_CACHE_SIZE < (l ++ [k]).length := by
        simp only [List.length_append, List.length_cons, List.length_nil]
        omega
      have hop : insertKeyOp l k = l ++ [k] := by
        unfold insertKeyOp
        rw [if_neg hcond]
      have hlen2 : (l ++ [k]).length ≤ MAX_CACHE_SIZE := by
        simp only [List.length_append, List.length_cons, List.length_nil]
        omega
      rw [hop, ih (l ++ [k]) hlen2]
      rw [List.append_assoc, List.singleton_append]
      congr 1
      simp only [List.length_append, List.length_cons, List.length_nil]
      omega
    · have hl5 : l.length = MAX_CACHE_SIZE := le_antisymm hl (not_lt.mp hc)
      have hcond : MAX_CACHE_SIZE < (l ++ [k]).length := by
        simp only [List.length_append, List.length_cons, List.length_nil]
        omega
      have hop : insertKeyOp l k = (l ++ [k]).drop 1 := by
        unfold insertKeyOp
        rw [if_pos hcond]
      have h1 : (1 : Nat) ≤ l.length := by omega
      have hlendrop : ((l ++ [k]).drop 1).length = l.length := by
        simp only [List.length_drop, List.length_append, List.length_cons,
          List.length_nil]
        omega
      have hlen1 : ((l ++ [k]).drop 1).length ≤ MAX_CACHE_SIZE := by
        rw [hlendrop]; exact hl
      rw [hop, ih ((l ++ [k]).drop 1) hlen1, hlendrop]
      have hamt : l.length + ks.length - MAX_CACHE_SIZE = ks.length := by omega
      rw [hamt]
      have hsplit : (l ++ [k]).drop 1 ++ ks = (l ++ (k :: ks)).drop 1 := by
        have hassoc : l ++ (k :: ks) = (l ++ [k]) ++ ks := by simp
        rw [hassoc]
        exact (List.drop_append_of_le_length
          (by simp only [List.length_append, List.length_cons, List.length_nil]
              omega)).symm
      rw [hsplit, List.drop_drop]
      congr 1
      omega

theorem stepGW_preserves (mgr : MontageManager) (impl : FilterImpl)
    (s : Streamer) (a : Args) :
    (stepGW mgr impl s a).raw_handle = s.raw_handle ∧
      (stepGW mgr impl s a).metadata_duration = s.metadata_duration :=
  get_window_preserves mgr impl s a.start_time a.duration a.montage a.fp a.buffer

theorem stepGW_miss_keys (mgr : MontageManager) (impl : FilterImpl)
    (s : Streamer) (rec : Recording) (a : Args)
    (hh : s.raw_handle = some rec)
    (hc : a.key ∉ s.window_cache.map Prod.fst)
    (hok : loadOk mgr rec s.metadata_duration a) :
    (stepGW mgr impl s a).window_cache.map Prod.fst =
      insertKeyOp (s.window_cache.map Prod.fst) a.key := by
  have hcl : cacheLookup s.window_cache a.key = none :=
    (cacheLookup_eq_none_iff _ _).mpr hc
  obtain ⟨hr, hmok⟩ := hok
  have hr2 : ¬ ((readRange s.metadata_duration a.start_time a.duration a.buffer).2 <
      (readRange s.metadata_duration a.start_time a.duration a.buffer).1) :=
    not_lt.mpr hr
  rcases hm : applyMontage mgr (rawWindow rec s.metadata_duration a) a.montage
      with e | w1
  · rw [hm] at hmok
    simp [Except.isOk, Except.toBool] at hmok
  · unfold stepGW
    rw [get_window_miss mgr impl s rec a.start_time a.duration a.montage a.fp
      a.buffer w1 hh hcl hr2 hm]
    exact missInsert_keys _ _ _

theorem stepGW_hit_keys (mgr : MontageManager) (impl : FilterImpl)
    (s : Streamer) (rec : Recording) (a : Args)
    (hh : s.raw_handle = some rec)
    (hc : a.key ∈ s.window_cache.map Prod.fst) :
    (stepGW mgr impl s a).window_cache.map Prod.fst =
      (s.window_cache.map Prod.fst).filter (fun x => x ≠ a.key) ++ [a.key] := by
  have hsome : (cacheLookup s.window_cache a.key).isSome :=
    (cacheLookup_isSome_iff _ _).mpr hc
  obtain ⟨w, hw⟩ := Option.isSome_iff_exists.mp hsome
  unfold stepGW
  rw [get_window_hit mgr impl s rec a.start_time a.duration a.montage a.fp
    a.buffer w hh hw]
  exact moveToEnd_keys _ _ hsome

theorem runSeq_fresh_keys (mgr : MontageManager) (impl : FilterImpl)
    (args : List Args) (s : Streamer) (rec : Recording)
    (hh : s.raw_handle = some rec)
    (hok : ∀ a ∈ args, loadOk mgr rec s.metadata_duration a)
    (hnodup : (args.map Args.key).Nodup)
    (hfresh : ∀ a ∈ args, a.key ∉ s.window_cache.map Prod.fst) :
    (runSeq mgr impl s args).window_cache.map Prod.fst =
      List.foldl insertKeyOp (s.window_cache.map Prod.fst) (args.map Args.key) := by
  induction args generalizing s with
  | nil => simp [runSeq]
  | cons a rest ih =>
    have hmem : a ∈ a :: rest := List.mem_cons_self a rest
    have hstep := stepGW_miss_keys mgr impl s rec a hh (hfresh a hmem) (hok a hmem)
    have hpres := stepGW_preserves mgr impl s a
    have hh1 : (stepGW mgr impl s a).raw_handle = some rec := by
      rw [hpres.1]; exact hh
    have hok1 : ∀ b ∈ rest, loadOk mgr rec (stepGW mgr impl s a).metadata_duration b := by
      intro b hb
      rw [hpres.2]
      exact hok b (List.mem_cons_of_mem a hb)
    have hnodup1 : (rest.map Args.key).Nodup := by
      simp only [List.map_cons, List.nodup_cons] at hnodup
      exact hnodup.2
    have hfresh1 : ∀ b ∈ rest, b.key ∉ (stepGW mgr impl s a).window_cache.map Prod.fst := by
      intro b hb hbmem
      rw [hstep] at hbmem
      rcases mem_insertKeyOp _ _ _ hbmem with hin | heq
      · exact hfresh b (List.mem_cons_of_mem a hb) hin
      · simp only [List.map_cons, List.nodup_cons, List.mem_map] at hnodup
        exact hnodup.1 ⟨b, hb, heq⟩
    have hrun : runSeq mgr impl s (a :: rest) =
        runSeq mgr impl (stepGW mgr impl s a) rest := by
      simp [runSeq]
    rw [hrun, ih (stepGW mgr impl s a) hh1 hok1 hnodup1 hfresh1, hstep]
    simp

theorem get_window_cache_bound (mgr : MontageManager) (impl : FilterImpl)
    (s : Streamer) (st du : Rat) (m : String) (fp : FilterParams) (buf : Rat)
    (h : s.window_cache.length ≤ MAX_CACHE_SIZE) :
    (get_window mgr impl s st du m fp buf).state.window_cache.length ≤
      MAX_CACHE_SIZE := by
  rcases hh : s.raw_handle with _ | rec
  · rw [get_window_no_file mgr impl s st du m fp buf hh]
    exact h
  · rcases hcl : cacheLookup s.window_cache (mkCacheKey st du m fp) with _ | w
    · by_cases hr : (readRange s.metadata_duration st du buf).2 <
          (readRange s.metadata_duration st du buf).1
      · rw [get_window_crop_fail mgr impl s rec st du m fp buf hh hcl hr]
        exact h
      · rcases hm : applyMontage mgr
            ⟨rec.cropData (readRange s.metadata_duration st du buf).1
                (readRange s.metadata_duration st du buf).2,
              (readRange s.metadata_duration st du buf).1,
              (readRange s.metadata_duration st du buf).2⟩ m with e | w1
        · rw [get_window_montage_fail mgr impl s rec st du m fp buf e hh hcl hr hm]
          exact h
        · rw [get_window_miss mgr impl s rec st du m fp buf w1 hh hcl hr hm]
          exact missInsert_length_le _ _ _ h
    · rw [get_window_hit mgr impl s rec st du m fp buf w hh hcl]
      exact le_trans (moveToEnd_length_le _ _ (by simp [hcl])) h


theorem second_call_hits (mgr : MontageManager) (impl : FilterImpl)
    (s : Streamer) (st du : Rat) (m : String) (fp : FilterParams)
    (b1 b2 : Rat) (w : Window)
    (h : (get_window mgr impl s st du m fp b1).result = Except.ok w) :
    (get_window mgr impl (get_window mgr impl s st du m fp b1).state
        st du m fp b2).result = Except.ok w ∧
      (get_window mgr impl (get_window mgr impl s st du m fp b1).state
        st du m fp b2).reads = 0 := by
  have hlook : cacheLookup (get_window mgr impl s st du m fp b1).state.window_cache
      (mkCacheKey st du m fp) = some w :=
    get_window_ok_lookup mgr impl s st du m fp b1 w h
  rcases hh : s.raw_handle with _ | rec
  · rw [get_window_no_file mgr impl s st du m fp b1 hh] at h
    simp at h
  · have hh1 : (get_window mgr impl s st du m fp b1).state.raw_handle = some rec := by
      rw [(get_window_preserves mgr impl s st du m fp b1).1]
      exact hh
    rw [get_window_hit mgr impl (get_window mgr impl s st du m fp b1).state rec
      st du m fp b2 w hh1 hlook]
    exact ⟨rfl, rfl⟩

end DataStreamer

/-! ## Theorems: the windowed data-access layer -/

namespace DataStreamer

/-- C10: calling `get_window` before any recording has been successfully
opened (`raw_handle is None`) always raises an error
(`RuntimeError("No EDF file is open...")`), performs no SignalSource read,
and performs no cache mutation — the streamer state is unchanged by the
failed call. -/
theorem get_window_requires_open_file (mgr : MontageManager)
    (impl : FilterImpl) (s : Streamer) (st du : Rat) (m : String)
    (fp : FilterParams) (buf : Rat) (h : s.raw_handle = none) :
    (get_window mgr impl s st du m fp buf).result =
        Except.error GWError.noFileOpen ∧
      (get_window mgr impl s st du m fp buf).state = s ∧
      (get_window mgr impl s st du m fp buf).reads = 0 := by
  rw [get_window_no_file mgr impl s st du m fp buf h]
  exact ⟨rfl, rfl, rfl⟩

/-- Witness for C10 on the freshly initialized streamer. -/
theorem get_window_requires_open_file_witness :
    (get_window sampleMgr okImpl Streamer.init 0 10 "AVERAGE" (none, none) 2).result =
        Except.error GWError.noFileOpen ∧
      (get_window sampleMgr okImpl Streamer.init 0 10 "AVERAGE" (none, none) 2).state =
        Streamer.init ∧
      (get_window sampleMgr okImpl Streamer.init 0 10 "AVERAGE" (none, none) 2).reads = 0 :=
  get_window_requires_open_file sampleMgr okImpl Streamer.init 0 10 "AVERAGE"
    (none, none) 2 rfl

/-- C9: `_apply_filter` with both cutoffs unset (both `None`) returns the
input unchanged: the identity transform, with no filtering operation
performed and no warning logged, for every window and every filter
collaborator. -/
theorem apply_filter_identity_when_unset (impl : FilterImpl) (w : Window) :
    applyFilter impl w (none, none) = (w, false) := rfl

/-- C8: when the filter stage cannot be computed (the filter collaborator
raises for this window and cutoffs) and at least one cutoff is set,
`_apply_filter` returns the unfiltered samples and logs a warning; the whole
`get_window` request still succeeds, returning the unfiltered (montaged)
window, with the degradation surfaced as the warning rather than silently
absorbed. -/
theorem filter_failure_degrades_to_unfiltered (mgr : MontageManager)
    (impl : FilterImpl) (s : Streamer) (rec : Recording) (st du : Rat)
    (m : String) (fp : FilterParams) (buf : Rat) (w1 : Window)
    (hset : fp.1.isSome ∨ fp.2.isSome)
    (hfail : impl fp.1 fp.2 w1 = none)
    (hh : s.raw_handle = some rec)
    (hc : cacheLookup s.window_cache (mkCacheKey st du m fp) = none)
    (hr : ¬ ((readRange s.metadata_duration st du buf).2 <
             (readRange s.metadata_duration st du buf).1))
    (hm : applyMontage mgr
        ⟨rec.cropData (readRange s.metadata_duration st du buf).1
            (readRange s.metadata_duration st du buf).2,
          (readRange s.metadata_duration st du buf).1,
          (readRange s.metadata_duration st du buf).2⟩ m = Except.ok w1) :
    applyFilter impl w1 fp = (w1, true) ∧
      (get_window mgr impl s st du m fp buf).result = Except.ok w1 ∧
      (get_window mgr impl s st du m fp buf).filter_warned = true := by
  have haf : applyFilter impl w1 fp = (w1, true) := by
    unfold applyFilter
    rw [if_pos hset, hfail]
  refine ⟨haf, ?_, ?_⟩
  · rw [get_window_miss mgr impl s rec st du m fp buf w1 hh hc hr hm]
    simp [haf]
  · rw [get_window_miss mgr impl s rec st du m fp buf w1 hh hc hr hm]
    simp [haf]

/-- Witness for C8: a band-pass request on the open sample recording whose
filter collaborator raises. -/
theorem filter_failure_degrades_to_unfiltered_witness :
    applyFilter failImpl
        ⟨sampleRecording.cropData (readRange 50 0 10 2).1 (readRange 50 0 10 2).2,
          (readRange 50 0 10 2).1, (readRange 50 0 10 2).2⟩
        (some 1, some 35) =
      (⟨sampleRecording.cropData (readRange 50 0 10 2).1 (readRange 50 0 10 2).2,
          (readRange 50 0 10 2).1, (readRange 50 0 10 2).2⟩, true) ∧
      (get_window sampleMgr failImpl openState 0 10 "AVERAGE"
          (some 1, some 35) 2).result =
        Except.ok ⟨sampleRecording.cropData (readRange 50 0 10 2).1
            (readRange 50 0 10 2).2,
          (readRange 50 0 10 2).1, (readRange 50 0 10 2).2⟩ ∧
      (get_window sampleMgr failImpl openState 0 10 "AVERAGE"
          (some 1, some 35) 2).filter_warned = true :=
  filter_failure_degrades_to_unfiltered sampleMgr failImpl openState
    sampleRecording 0 10 "AVERAGE" (some 1, some 35) 2
    ⟨sampleRecording.cropData (readRange 50 0 10 2).1 (readRange 50 0 10 2).2,
      (readRange 50 0 10 2).1, (readRange 50 0 10 2).2⟩
    (Or.inl rfl) rfl rfl rfl
    (by norm_num [readRange, openState, min_def, max_def]) rfl

/-- C3: for a request that completed successfully, repeating `get_window`
with the identical arguments and no intervening `clear_cache` or settings
change returns the content-identical window and performs zero SignalSource
reads (a pure cache hit). -/
theorem repeat_get_window_is_cache_hit (mgr : MontageManager)
    (impl : FilterImpl) (s : Streamer) (st du : Rat) (m : String)
    (fp : FilterParams) (buf : Rat) (w : Window)
    (h : (get_window mgr impl s st du m fp buf).result = Except.ok w) :
    (get_window mgr impl (get_window mgr impl s st du m fp buf).state
        st du m fp buf).result = Except.ok w ∧
      (get_window mgr impl (get_window mgr impl s st du m fp buf).state
        st du m fp buf).reads = 0 :=
  second_call_hits mgr impl s st du m fp buf buf w h

/-- Witness for C3 on the open sample recording. -/
theorem repeat_get_window_is_cache_hit_witness :
    (get_window sampleMgr okImpl
        (get_window sampleMgr okImpl openState 0 10 "AVERAGE" (none, none) 2).state
        0 10 "AVERAGE" (none, none) 2).result =
      Except.ok ⟨sampleRecording.cropData (readRange 50 0 10 2).1
          (readRange 50 0 10 2).2,
        (readRange 50 0 10 2).1, (readRange 50 0 10 2).2⟩ ∧
      (get_window sampleMgr okImpl
        (get_window sampleMgr okImpl openState 0 10 "AVERAGE" (none, none) 2).state
        0 10 "AVERAGE" (none, none) 2).reads = 0 :=
  repeat_get_window_is_cache_hit sampleMgr okImpl openState 0 10 "AVERAGE"
    (none, none) 2
    ⟨sampleRecording.cropData (readRange 50 0 10 2).1 (readRange 50 0 10 2).2,
      (readRange 50 0 10 2).1, (readRange 50 0 10 2).2⟩
    (by rw [get_window_miss sampleMgr okImpl openState sampleRecording 0 10
        "AVERAGE" (none, none) 2
        ⟨sampleRecording.cropData (readRange 50 0 10 2).1 (readRange 50 0 10 2).2,
          (readRange 50 0 10 2).1, (readRange 50 0 10 2).2⟩ rfl rfl
        (by norm_num [readRange, openState, min_def, max_def]) rfl]
        rfl)

/-- C6: the cache key is built from exactly the caller-requested
(start_time, duration, montage, filter_spec) — two keys are equal iff all
four fields compare equal (floats by raw value, `Rat` equality being
exact) — and `buffer_seconds` is not part of the key: after a successful
call, repeating the same four arguments with a different buffer is still a
pure cache hit returning the cached window with zero reads. -/
theorem cache_key_is_caller_arguments :
    (∀ st du : Rat, ∀ m : String, ∀ fp : FilterParams,
      mkCacheKey st du m fp = ⟨st, du, m, fp⟩) ∧
    (∀ k1 k2 : CacheKey, k1 = k2 ↔
      (k1.start_time = k2.start_time ∧ k1.duration = k2.duration ∧
        k1.montage = k2.montage ∧ k1.filter_params = k2.filter_params)) ∧
    (∀ (mgr : MontageManager) (impl : FilterImpl) (s : Streamer)
        (st du : Rat) (m : String) (fp : FilterParams) (b1 b2 : Rat) (w : Window),
      (get_window mgr impl s st du m fp b1).result = Except.ok w →
      (get_window mgr impl (get_window mgr impl s st du m fp b1).state
          st du m fp b2).result = Except.ok w ∧
        (get_window mgr impl (get_window mgr impl s st du m fp b1).state
          st du m fp b2).reads = 0) := by
  refine ⟨fun st du m fp => rfl, ?_, ?_⟩
  · intro k1 k2
    constructor
    · rintro rfl
      exact ⟨rfl, rfl, rfl, rfl⟩
    · rintro ⟨h1, h2, h3, h4⟩
      cases k1
      cases k2
      simp_all
  · intro mgr impl s st du m fp b1 b2 w h
    exact second_call_hits mgr impl s st du m fp b1 b2 w h

/-- Witness for C6: the buffer-independence clause at a concrete repeat
request whose buffer differs (2 s then 3 s), and the key-equality clause at
concrete keys. -/
theorem cache_key_is_caller_arguments_witness :
    ((get_window sampleMgr okImpl
        (get_window sampleMgr okImpl openState 0 10 "AVERAGE" (none, none) 2).state
        0 10 "AVERAGE" (none, none) 3).result =
      Except.ok ⟨sampleRecording.cropData (readRange 50 0 10 2).1
          (readRange 50 0 10 2).2,
        (readRange 50 0 10 2).1, (readRange 50 0 10 2).2⟩ ∧
      (get_window sampleMgr okImpl
        (get_window sampleMgr okImpl openState 0 10 "AVERAGE" (none, none) 2).state
        0 10 "AVERAGE" (none, none) 3).reads = 0) ∧
    (mkCacheKey 0 10 "AVERAGE" (none, none) =
        mkCacheKey 0 10 "AVERAGE" (none, none) ↔
      ((0 : Rat) = 0 ∧ (10 : Rat) = 10 ∧ "AVERAGE" = "AVERAGE" ∧
        ((none, none) : FilterParams) = (none, none))) :=
  ⟨cache_key_is_caller_arguments.2.2 sampleMgr okImpl openState 0 10 "AVERAGE"
      (none, none) 2 3
      ⟨sampleRecording.cropData (readRange 50 0 10 2).1 (readRange 50 0 10 2).2,
        (readRange 50 0 10 2).1, (readRange 50 0 10 2).2⟩
      (by rw [get_window_miss sampleMgr okImpl openState sampleRecording 0 10
          "AVERAGE" (none, none) 2
          ⟨sampleRecording.cropData (readRange 50 0 10 2).1 (readRange 50 0 10 2).2,
            (readRange 50 0 10 2).1, (readRange 50 0 10 2).2⟩ rfl rfl
          (by norm_num [readRange, openState, min_def, max_def]) rfl]
          rfl),
    cache_key_is_caller_arguments.2.1 (mkCacheKey 0 10 "AVERAGE" (none, none))
      (mkCacheKey 0 10 "AVERAGE" (none, none))⟩

end DataStreamer

namespace DataStreamer

/-- C5 counterexample: with a 50 s recording open, requesting a window at
start_time = 100 s computes tmin = max(0,100) = 100 > 50 = total_duration —
the computed read range is not within [0, total_duration] — and the call
fails with RuntimeError (crop raises on tmin > tmax) instead of yielding an
empty or minimal-duration window. -/
theorem read_range_clamp_counterexample :
    (readRange 50 100 10 2).1 > 50 ∧
      (get_window sampleMgr okImpl openState 100 10 "AVERAGE"
          (none, none) 2).result = Except.error GWError.loadFailed := by
  constructor
  · norm_num [readRange, max_def]
  · rw [get_window_crop_fail sampleMgr okImpl openState sampleRecording 100 10
      "AVERAGE" (none, none) 2 rfl rfl
      (by norm_num [readRange, openState, min_def, max_def])]

/-- C5 amended: `get_window` computes the internal read range
`[max(0, start_time), min(total_duration, start_time+duration+buffer)]`;
whenever 0 ≤ start_time ≤ total_duration and duration, buffer ≥ 0 that range
lies within [0, total_duration] with tmin ≤ tmax; but when start_time
exceeds total_duration, tmin exceeds tmax and a cache-miss `get_window`
fails with RuntimeError — before any sample is read (zero reads), so no
out-of-bounds read is attempted. -/
theorem read_range_clamped (mdur st du buf : Rat) :
    ((0 ≤ st ∧ st ≤ mdur ∧ 0 ≤ du ∧ 0 ≤ buf) →
      (0 ≤ (readRange mdur st du buf).1 ∧
        (readRange mdur st du buf).1 ≤ (readRange mdur st du buf).2 ∧
        (readRange mdur st du buf).2 ≤ mdur)) ∧
    (∀ (mgr : MontageManager) (impl : FilterImpl) (s : Streamer)
        (rec : Recording) (m : String) (fp : FilterParams),
      s.raw_handle = some rec → s.metadata_duration = mdur → mdur < st →
      cacheLookup s.window_cache (mkCacheKey st du m fp) = none →
      ((readRange mdur st du buf).2 < (readRange mdur st du buf).1 ∧
        (get_window mgr impl s st du m fp buf).result =
          Except.error GWError.loadFailed ∧
        (get_window mgr impl s st du m fp buf).reads = 0)) := by
  constructor
  · rintro ⟨h1, h2, h3, h4⟩
    refine ⟨le_max_left 0 st, ?_, min_le_left _ _⟩
    unfold readRange
    rw [max_eq_right h1]
    exact le_min h2 (by linarith)
  · intro mgr impl s rec m fp hh hmd hlt hc
    have hr : (readRange mdur st du buf).2 < (readRange mdur st du buf).1 := by
      unfold readRange
      calc min mdur (st + du + buf) ≤ mdur := min_le_left _ _
        _ < st := hlt
        _ ≤ max 0 st := le_max_right 0 st
    have hr2 : (readRange s.metadata_duration st du buf).2 <
        (readRange s.metadata_duration st du buf).1 := by
      rw [hmd]
      exact hr
    refine ⟨hr, ?_, ?_⟩
    · rw [get_window_crop_fail mgr impl s rec st du m fp buf hh hc hr2]
    · rw [get_window_crop_fail mgr impl s rec st du m fp buf hh hc hr2]

/-- Witness for the amended C5: the in-bounds clause at
(total, start, duration, buffer) = (50, 0, 10, 2) and the failure clause at
start_time = 100 on the open 50 s sample recording. -/
theorem read_range_clamped_witness :
    ((0:Rat) ≤ (readRange 50 0 10 2).1 ∧
      (readRange 50 0 10 2).1 ≤ (readRange 50 0 10 2).2 ∧
      (readRange 50 0 10 2).2 ≤ 50) ∧
    ((readRange 50 100 10 2).2 < (readRange 50 100 10 2).1 ∧
      (get_window sampleMgr okImpl openState 100 10 "AVERAGE"
          (none, none) 2).result = Except.error GWError.loadFailed ∧
      (get_window sampleMgr okImpl openState 100 10 "AVERAGE"
          (none, none) 2).reads = 0) :=
  ⟨(read_range_clamped 50 0 10 2).1 (by norm_num),
    (read_range_clamped 50 100 10 2).2 sampleMgr okImpl openState
      sampleRecording "AVERAGE" (none, none) rfl rfl (by norm_num) rfl⟩

/-- C1 counterexample: with the sample recording open and an empty cache,
requesting the montage name "BIPOLAR FOO", which is absent from the
catalog, does not fail with an error and does not leave the state
unchanged: `get_montage` raises KeyError, `_apply_montage` catches it, and
`get_window` returns the untransformed (identity) window and inserts it
into the cache. -/
theorem unknown_montage_counterexample :
    MontageManager.get_montage sampleMgr "BIPOLAR FOO" =
        Except.error GWError.keyError ∧
      (get_window sampleMgr okImpl openState 0 10 "BIPOLAR FOO"
          (none, none) 2).result =
        Except.ok ⟨sampleRecording.cropData (readRange 50 0 10 2).1
            (readRange 50 0 10 2).2,
          (readRange 50 0 10 2).1, (readRange 50 0 10 2).2⟩ ∧
      (get_window sampleMgr okImpl openState 0 10 "BIPOLAR FOO"
          (none, none) 2).state.window_cache.length = 1 := by
  refine ⟨rfl, ?_, ?_⟩
  · rw [get_window_miss sampleMgr okImpl openState sampleRecording 0 10
      "BIPOLAR FOO" (none, none) 2
      ⟨sampleRecording.cropData (readRange 50 0 10 2).1 (readRange 50 0 10 2).2,
        (readRange 50 0 10 2).1, (readRange 50 0 10 2).2⟩ rfl rfl
      (by norm_num [readRange, openState, min_def, max_def]) rfl]
    rfl
  · rw [get_window_miss sampleMgr okImpl openState sampleRecording 0 10
      "BIPOLAR FOO" (none, none) 2
      ⟨sampleRecording.cropData (readRange 50 0 10 2).1 (readRange 50 0 10 2).2,
        (readRange 50 0 10 2).1, (readRange 50 0 10 2).2⟩ rfl rfl
      (by norm_num [readRange, openState, min_def, max_def]) rfl]
    rfl

/-- C1 amended: for every open recording and cache-miss request whose
montage name starts with "BIPOLAR" but is absent from the MontageCatalog,
`get_montage` raises KeyError, but `_apply_montage` catches it and returns
the window untransformed (identity fallback, logged as an error rather than
propagated), so `get_window` succeeds: it returns the (possibly filtered)
untransformed window and inserts it into the cache under the requested
key — the state does change. -/
theorem unknown_montage_falls_back (mgr : MontageManager) (impl : FilterImpl)
    (s : Streamer) (rec : Recording) (st du : Rat) (m : String)
    (fp : FilterParams) (buf : Rat)
    (hh : s.raw_handle = some rec)
    (hb : strStartsWith m "BIPOLAR" = true)
    (habsent : mgr.montages.find? (fun p => p.1 = m) = none)
    (hc : cacheLookup s.window_cache (mkCacheKey st du m fp) = none)
    (hr : ¬ ((readRange s.metadata_duration st du buf).2 <
             (readRange s.metadata_duration st du buf).1)) :
    mgr.get_montage m = Except.error GWError.keyError ∧
      applyMontage mgr
        ⟨rec.cropData (readRange s.metadata_duration st du buf).1
            (readRange s.metadata_duration st du buf).2,
          (readRange s.metadata_duration st du buf).1,
          (readRange s.metadata_duration st du buf).2⟩ m =
        Except.ok ⟨rec.cropData (readRange s.metadata_duration st du buf).1
            (readRange s.metadata_duration st du buf).2,
          (readRange s.metadata_duration st du buf).1,
          (readRange s.metadata_duration st du buf).2⟩ ∧
      (get_window mgr impl s st du m fp buf).result =
        Except.ok (applyFilter impl
          ⟨rec.cropData (readRange s.metadata_duration st du buf).1
              (readRange s.metadata_duration st du buf).2,
            (readRange s.metadata_duration st du buf).1,
            (readRange s.metadata_duration st du buf).2⟩ fp).1 ∧
      cacheLookup (get_window mgr impl s st du m fp buf).state.window_cache
          (mkCacheKey st du m fp) =
        some (applyFilter impl
          ⟨rec.cropData (readRange s.metadata_duration st du buf).1
              (readRange s.metadata_duration st du buf).2,
            (readRange s.metadata_duration st du buf).1,
            (readRange s.metadata_duration st du buf).2⟩ fp).1 := by
  have hget : mgr.get_montage m = Except.error GWError.keyError := by
    unfold MontageManager.get_montage
    rw [habsent]
  have hmont : applyMontage mgr
      ⟨rec.cropData (readRange s.metadata_duration st du buf).1
          (readRange s.metadata_duration st du buf).2,
        (readRange s.metadata_duration st du buf).1,
        (readRange s.metadata_duration st du buf).2⟩ m =
      Except.ok ⟨rec.cropData (readRange s.metadata_duration st du buf).1
          (readRange s.metadata_duration st du buf).2,
        (readRange s.metadata_duration st du buf).1,
        (readRange s.metadata_duration st du buf).2⟩ := by
    unfold applyMontage
    rw [if_pos hb, hget]
  refine ⟨hget, hmont, ?_, ?_⟩
  · rw [get_window_miss mgr impl s rec st du m fp buf _ hh hc hr hmont]
  · rw [get_window_miss mgr impl s rec st du m fp buf _ hh hc hr hmont]
    exact cacheLookup_missInsert_self _ _ _ hc

/-- Witness for the amended C1: "BIPOLAR FOO" on the open sample recording
whose catalog only holds "BIPOLAR DOUBLE BANANA". -/
theorem unknown_montage_falls_back_witness :
    MontageManager.get_montage sampleMgr "BIPOLAR FOO" =
        Except.error GWError.keyError ∧
      applyMontage sampleMgr
        ⟨sampleRecording.cropData (readRange openState.metadata_duration 0 10 2).1
            (readRange openState.metadata_duration 0 10 2).2,
          (readRange openState.metadata_duration 0 10 2).1,
          (readRange openState.metadata_duration 0 10 2).2⟩ "BIPOLAR FOO" =
        Except.ok ⟨sampleRecording.cropData
            (readRange openState.metadata_duration 0 10 2).1
            (readRange openState.metadata_duration 0 10 2).2,
          (readRange openState.metadata_duration 0 10 2).1,
          (readRange openState.metadata_duration 0 10 2).2⟩ ∧
      (get_window sampleMgr okImpl openState 0 10 "BIPOLAR FOO"
          (none, none) 2).result =
        Except.ok (applyFilter okImpl
          ⟨sampleRecording.cropData (readRange openState.metadata_duration 0 10 2).1
              (readRange openState.metadata_duration 0 10 2).2,
            (readRange openState.metadata_duration 0 10 2).1,
            (readRange openState.metadata_duration 0 10 2).2⟩ (none, none)).1 ∧
      cacheLookup (get_window sampleMgr okImpl openState 0 10 "BIPOLAR FOO"
          (none, none) 2).state.window_cache
          (mkCacheKey 0 10 "BIPOLAR FOO" (none, none)) =
        some (applyFilter okImpl
          ⟨sampleRecording.cropData (readRange openState.metadata_duration 0 10 2).1
              (readRange openState.metadata_duration 0 10 2).2,
            (readRange openState.metadata_duration 0 10 2).1,
            (readRange openState.metadata_duration 0 10 2).2⟩ (none, none)).1 :=
  unknown_montage_falls_back sampleMgr okImpl openState sampleRecording 0 10
    "BIPOLAR FOO" (none, none) 2 rfl rfl rfl rfl
    (by norm_num [readRange, openState, min_def, max_def])

end DataStreamer

namespace DataStreamer

/-- C4: (i) after every completed `get_window` call on a state whose cache
respects the bound, the window cache holds at most MAX_CACHE_SIZE = 5
entries; (ii) starting from an empty cache, a sequence of requests with
pairwise-distinct keys (no repeats, each load succeeding) leaves exactly
the MAX_CACHE_SIZE most recently inserted keys, in recency order (head =
least recently used); (iii) eviction is LRU by read access, not insertion
order: after filling the cache with distinct keys k1..k5, re-reading k1 (a
cache hit) and then inserting a fresh k6 evicts k2 — the least recently
used key — while k1, the earliest inserted, survives. -/
theorem lru_cache_eviction :
    (∀ (mgr : MontageManager) (impl : FilterImpl) (s : Streamer)
        (st du : Rat) (m : String) (fp : FilterParams) (buf : Rat),
      s.window_cache.length ≤ MAX_CACHE_SIZE →
      (get_window mgr impl s st du m fp buf).state.window_cache.length ≤
        MAX_CACHE_SIZE) ∧
    (∀ (mgr : MontageManager) (impl : FilterImpl) (rec : Recording)
        (mdur : Rat) (args : List Args),
      (args.map Args.key).Nodup →
      (∀ a ∈ args, loadOk mgr rec mdur a) →
      (runSeq mgr impl ⟨some rec, [], mdur⟩ args).window_cache.map Prod.fst =
        (args.map Args.key).drop (args.length - MAX_CACHE_SIZE)) ∧
    (∀ (mgr : MontageManager) (impl : FilterImpl) (rec : Recording)
        (mdur : Rat) (a1 a2 a3 a4 a5 a6 : Args),
      ([a1, a2, a3, a4, a5, a6].map Args.key).Nodup →
      (∀ a ∈ [a1, a2, a3, a4, a5, a6], loadOk mgr rec mdur a) →
      (runSeq mgr impl ⟨some rec, [], mdur⟩
          [a1, a2, a3, a4, a5, a1, a6]).window_cache.map Prod.fst =
        [a3.key, a4.key, a5.key, a1.key, a6.key]) := by
  refine ⟨?_, ?_, ?_⟩
  · intro mgr impl s st du m fp buf h
    exact get_window_cache_bound mgr impl s st du m fp buf h
  · intro mgr impl rec mdur args hnodup hok
    have hrs := runSeq_fresh_keys mgr impl args ⟨some rec, [], mdur⟩ rec rfl
      hok hnodup (by intro a ha; simp)
    rw [hrs]
    have hfold := foldl_insertKeyOp (args.map Args.key) [] (by simp [MAX_CACHE_SIZE])
    simp only [List.length_map] at hfold
    simpa using hfold
  · intro mgr impl rec mdur a1 a2 a3 a4 a5 a6 hnodup hok
    simp only [List.map_cons, List.map_nil, List.nodup_cons, List.mem_cons,
      List.mem_singleton, List.not_mem_nil, or_false, not_or,
      List.nodup_nil, and_true] at hnodup
    obtain ⟨⟨h12, h13, h14, h15, h16⟩, ⟨h23, h24, h25, h26⟩,
      ⟨h34, h35, h36⟩, ⟨h45, h46⟩, h56, -⟩ := hnodup
    have n21 : a2.key ≠ a1.key := fun h => h12 h.symm
    have n31 : a3.key ≠ a1.key := fun h => h13 h.symm
    have n41 : a4.key ≠ a1.key := fun h => h14 h.symm
    have n51 : a5.key ≠ a1.key := fun h => h15 h.symm
    have n32 : a3.key ≠ a2.key := fun h => h23 h.symm
    have n42 : a4.key ≠ a2.key := fun h => h24 h.symm
    have n52 : a5.key ≠ a2.key := fun h => h25 h.symm
    have n43 : a4.key ≠ a3.key := fun h => h34 h.symm
    have n53 : a5.key ≠ a3.key := fun h => h35 h.symm
    have n54 : a5.key ≠ a4.key := fun h => h45 h.symm
    have n61 : a6.key ≠ a1.key := fun h => h16 h.symm
    have n62 : a6.key ≠ a2.key := fun h => h26 h.symm
    have n63 : a6.key ≠ a3.key := fun h => h36 h.symm
    have n64 : a6.key ≠ a4.key := fun h => h46 h.symm
    have n65 : a6.key ≠ a5.key := fun h => h56 h.symm
    have hok1 : loadOk mgr rec mdur a1 := hok a1 (by simp)
    have hok2 : loadOk mgr rec mdur a2 := hok a2 (by simp)
    have hok3 : loadOk mgr rec mdur a3 := hok a3 (by simp)
    have hok4 : loadOk mgr rec mdur a4 := hok a4 (by simp)
    have hok5 : loadOk mgr rec mdur a5 := hok a5 (by simp)
    have hok6 : loadOk mgr rec mdur a6 := hok a6 (by simp)
    have hrun : runSeq mgr impl ⟨some rec, [], mdur⟩
        [a1, a2, a3, a4, a5, a1, a6] =
        stepGW mgr impl (stepGW mgr impl (stepGW mgr impl (stepGW mgr impl
          (stepGW mgr impl (stepGW mgr impl (stepGW mgr impl
            ⟨some rec, [], mdur⟩ a1) a2) a3) a4) a5) a1) a6 := by
      simp only [runSeq, List.foldl_cons, List.foldl_nil]
    rw [hrun]
    set s1 := stepGW mgr impl ⟨some rec, [], mdur⟩ a1 with hs1
    set s2 := stepGW mgr impl s1 a2 with hs2
    set s3 := stepGW mgr impl s2 a3 with hs3
    set s4 := stepGW mgr impl s3 a4 with hs4
    set s5 := stepGW mgr impl s4 a5 with hs5
    set s6 := stepGW mgr impl s5 a1 with hs6
    have hh1 : s1.raw_handle = some rec := by
      rw [hs1, (stepGW_preserves mgr impl ⟨some rec, [], mdur⟩ a1).1]
    have hm1 : s1.metadata_duration = mdur := by
      rw [hs1, (stepGW_preserves mgr impl ⟨some rec, [], mdur⟩ a1).2]
    have e1 : s1.window_cache.map Prod.fst = [a1.key] := by
      rw [hs1, stepGW_miss_keys mgr impl ⟨some rec, [], mdur⟩ rec a1 rfl
        (by simp) hok1]
      rfl
    have hh2 : s2.raw_handle = some rec := by
      rw [hs2, (stepGW_preserves mgr impl s1 a2).1, hh1]
    have hm2 : s2.metadata_duration = mdur := by
      rw [hs2, (stepGW_preserves mgr impl s1 a2).2, hm1]
    have e2 : s2.window_cache.map Prod.fst = [a1.key, a2.key] := by
      rw [hs2, stepGW_miss_keys mgr impl s1 rec a2 hh1
        (by rw [e1]; simp [n21]) (by rw [hm1]; exact hok2), e1]
      rfl
    have hh3 : s3.raw_handle = some rec := by
      rw [hs3, (stepGW_preserves mgr impl s2 a3).1, hh2]
    have hm3 : s3.metadata_duration = mdur := by
      rw [hs3, (stepGW_preserves mgr impl s2 a3).2, hm2]
    have e3 : s3.window_cache.map Prod.fst = [a1.key, a2.key, a3.key] := by
      rw [hs3, stepGW_miss_keys mgr impl s2 rec a3 hh2
        (by rw [e2]; simp [n31, n32]) (by rw [hm2]; exact hok3), e2]
      rfl
    have hh4 : s4.raw_handle = some rec := by
      rw [hs4, (stepGW_preserves mgr impl s3 a4).1, hh3]
    have hm4 : s4.metadata_duration = mdur := by
      rw [hs4, (stepGW_preserves mgr impl s3 a4).2, hm3]
    have e4 : s4.window_cache.map Prod.fst =
        [a1.key, a2.key, a3.key, a4.key] := by
      rw [hs4, stepGW_miss_keys mgr impl s3 rec a4 hh3
        (by rw [e3]; simp [n41, n42, n43]) (by rw [hm3]; exact hok4), e3]
      rfl
    have hh5 : s5.raw_handle = some rec := by
      rw [hs5, (stepGW_preserves mgr impl s4 a5).1, hh4]
    have hm5 : s5.metadata_duration = mdur := by
      rw [hs5, (stepGW_preserves mgr impl s4 a5).2, hm4]
    have e5 : s5.window_cache.map Prod.fst =
        [a1.key, a2.key, a3.key, a4.key, a5.key] := by
      rw [hs5, stepGW_miss_keys mgr impl s4 rec a5 hh4
        (by rw [e4]; simp [n51, n52, n53, n54]) (by rw [hm4]; exact hok5), e4]
      rfl
    have hh6 : s6.raw_handle = some rec := by
      rw [hs6, (stepGW_preserves mgr impl s5 a1).1, hh5]
    have hm6 : s6.metadata_duration = mdur := by
      rw [hs6, (stepGW_preserves mgr impl s5 a1).2, hm5]
    have e6 : s6.window_cache.map Prod.fst =
        [a2.key, a3.key, a4.key, a5.key, a1.key] := by
      rw [hs6, stepGW_hit_keys mgr impl s5 rec a1 hh5 (by rw [e5]; simp), e5]
      simp [List.filter_cons, n21, n31, n41, n51]
    have e7 : (stepGW mgr impl s6 a6).window_cache.map Prod.fst =
        [a3.key, a4.key, a5.key, a1.key, a6.key] := by
      rw [stepGW_miss_keys mgr impl s6 rec a6 hh6
        (by rw [e6]; simp [n61, n62, n63, n64, n65])
        (by rw [hm6]; exact hok6), e6]
      rfl
    exact e7

end DataStreamer

namespace DataStreamer

/-- Witness for C4: the bound at a concrete call on the open sample state;
the exactly-the-last-5-keys law for six distinct concrete requests; and the
LRU-not-FIFO eviction scenario at those requests. -/
theorem lru_cache_eviction_witness :
    ((get_window sampleMgr okImpl openState 0 10 "AVERAGE"
        (none, none) 2).state.window_cache.length ≤ MAX_CACHE_SIZE) ∧
    ((runSeq sampleMgr okImpl ⟨some sampleRecording, [], 50⟩
        [argAt 0, argAt 5, argAt 10, argAt 15, argAt 20, argAt 25]).window_cache.map
          Prod.fst =
      ([argAt 0, argAt 5, argAt 10, argAt 15, argAt 20, argAt 25].map Args.key).drop
        ([argAt 0, argAt 5, argAt 10, argAt 15, argAt 20, argAt 25].length -
          MAX_CACHE_SIZE)) ∧
    ((runSeq sampleMgr okImpl ⟨some sampleRecording, [], 50⟩
        [argAt 0, argAt 5, argAt 10, argAt 15, argAt 20, argAt 0,
          argAt 25]).window_cache.map Prod.fst =
      [(argAt 10).key, (argAt 15).key, (argAt 20).key, (argAt 0).key,
        (argAt 25).key]) :=
  ⟨lru_cache_eviction.1 sampleMgr okImpl openState 0 10 "AVERAGE"
      (none, none) 2 (by decide),
    lru_cache_eviction.2.1 sampleMgr okImpl sampleRecording 50
      [argAt 0, argAt 5, argAt 10, argAt 15, argAt 20, argAt 25]
      (by decide)
      (by
        intro a ha
        fin_cases ha <;>
          exact ⟨by norm_num [readRange, argAt, min_def, max_def], rfl⟩),
    lru_cache_eviction.2.2 sampleMgr okImpl sampleRecording 50
      (argAt 0) (argAt 5) (argAt 10) (argAt 15) (argAt 20) (argAt 25)
      (by decide)
      (by
        intro a ha
        fin_cases ha <;>
          exact ⟨by norm_num [readRange, argAt, min_def, max_def], rfl⟩)⟩

end DataStreamer

